import Mathlib

/-!
Verification of the NatLangChain desktop launcher's process-supervision core
(`src/frontend/src-tauri/src/main.rs`).

The program manages a `BackendState` holding `child : Option<CommandChild>`
behind a mutex, spawns a sidecar process in the `setup` hook, relays the
child's output events in a background task, and kills the child when the
window is destroyed.

The embedding below translates that source:
* `relay` is the background loop
  `while let Some(event) = rx.recv().await { match event { ... } }`,
  modelled as a function from the finite list of events received on the
  channel (the channel closing = end of list) to the list of diagnostic
  events printed (one `OutputEvent` per `println!`/`eprintln!`).
* `setup` is the setup closure's spawn-and-store step; the two
  `.expect(...)` panics are modelled as `Except.error` carrying the panic
  message (a panic in the setup hook is fatal to application startup).
* `onWindowEvent` is the `on_window_event` closure: on `Destroyed` it takes
  the child out of the state and issues a kill whose result is discarded
  (`let _ = child.kill();`); the returned triple records the new state, the
  number of kill requests issued, and the log lines emitted by the handler.
* `applyOp` / `runOps` drive a whole-application state machine whose
  reachable states model any interleaving of the setup hook (invoked at most
  once by the framework), window events, and relay receipts.
-/

/-- Opaque owned handle to a spawned child process
(`tauri::api::process::CommandChild`). -/
structure ProcessHandle where
  pid : Nat
deriving DecidableEq

/-- `struct BackendState { child: Option<CommandChild> }` from main.rs. -/
structure BackendState where
  child : Option ProcessHandle
deriving DecidableEq

/-- The payload of `CommandEvent::Terminated`: exit code and signal, both
optional (`TerminatedPayload { code: Option<i32>, signal: Option<i32> }`). -/
structure TerminatedPayload where
  code : Option Int
  signal : Option Int
deriving DecidableEq

/-- `tauri::api::process::CommandEvent`: the events received on the channel
returned by `spawn()`. `Error` is the variant the relay's wildcard arm
catches (stream read failure). -/
inductive CommandEvent where
  | Stdout (line : String)
  | Stderr (line : String)
  | Error (message : String)
  | Terminated (payload : TerminatedPayload)
deriving DecidableEq

/-- A diagnostic event forwarded by the relay: one per `println!` /
`eprintln!` executed in the loop body (the spec's `OutputEvent`). -/
inductive OutputEvent where
  | StdoutLine (text : String)
  | StderrLine (text : String)
  | Terminated (code : Option Int)
deriving DecidableEq

/-- The relay loop from the setup closure, as a function of the finite
sequence of events received before the channel closes:
`Stdout`/`Stderr` forward one line each, `Terminated` forwards one event and
breaks (the rest of the list is never received), and the wildcard arm
(`Error`) forwards nothing and continues. -/
def relay : List CommandEvent → List OutputEvent
  | [] => []
  | CommandEvent.Stdout line :: rest => OutputEvent.StdoutLine line :: relay rest
  | CommandEvent.Stderr line :: rest => OutputEvent.StderrLine line :: relay rest
  | CommandEvent.Error _ :: rest => relay rest
  | CommandEvent.Terminated payload :: _ => [OutputEvent.Terminated payload.code]

/-- Whether an event is the terminal exit notification. -/
def isTerm : CommandEvent → Bool
  | CommandEvent.Terminated _ => true
  | _ => false

/-- The stdout lines among the forwarded diagnostic events, in order. -/
def stdoutLines : List OutputEvent → List String
  | [] => []
  | OutputEvent.StdoutLine l :: rest => l :: stdoutLines rest
  | OutputEvent.StderrLine _ :: rest => stdoutLines rest
  | OutputEvent.Terminated _ :: rest => stdoutLines rest

/-- The stderr lines among the forwarded diagnostic events, in order. -/
def stderrLines : List OutputEvent → List String
  | [] => []
  | OutputEvent.StdoutLine _ :: rest => stderrLines rest
  | OutputEvent.StderrLine l :: rest => l :: stderrLines rest
  | OutputEvent.Terminated _ :: rest => stderrLines rest

/-- The stdout chunks among the received events, in order. -/
def stdoutChunks : List CommandEvent → List String
  | [] => []
  | CommandEvent.Stdout l :: rest => l :: stdoutChunks rest
  | CommandEvent.Stderr _ :: rest => stdoutChunks rest
  | CommandEvent.Error _ :: rest => stdoutChunks rest
  | CommandEvent.Terminated _ :: rest => stdoutChunks rest

/-- The stderr chunks among the received events, in order. -/
def stderrChunks : List CommandEvent → List String
  | [] => []
  | CommandEvent.Stdout _ :: rest => stderrChunks rest
  | CommandEvent.Stderr l :: rest => l :: stderrChunks rest
  | CommandEvent.Error _ :: rest => stderrChunks rest
  | CommandEvent.Terminated _ :: rest => stderrChunks rest

/-- The received events strictly before the first terminal exit
notification (the part of the stream the loop still reads line events
from). -/
def untilTerm : List CommandEvent → List CommandEvent
  | [] => []
  | CommandEvent.Stdout l :: rest => CommandEvent.Stdout l :: untilTerm rest
  | CommandEvent.Stderr l :: rest => CommandEvent.Stderr l :: untilTerm rest
  | CommandEvent.Error m :: rest => CommandEvent.Error m :: untilTerm rest
  | CommandEvent.Terminated _ :: _ => []

theorem relay_append_noterm (es l : List CommandEvent) (h : es.any isTerm = false) :
    relay (es ++ l) = relay es ++ relay l := by
  induction es with
  | nil => simp [relay]
  | cons e rest ih =>
    simp only [List.any_cons, Bool.or_eq_false_iff] at h
    cases e with
    | Stdout line => simp [relay, ih h.2]
    | Stderr line => simp [relay, ih h.2]
    | Error m => simp [relay, ih h.2]
    | Terminated p => simp [isTerm] at h

theorem relay_noterm_no_terminated (es : List CommandEvent) (h : es.any isTerm = false)
    (c : Option Int) : OutputEvent.Terminated c ∉ relay es := by
  induction es with
  | nil => simp [relay]
  | cons e rest ih =>
    simp only [List.any_cons, Bool.or_eq_false_iff] at h
    cases e with
    | Stdout line => simp [relay]; exact ih h.2
    | Stderr line => simp [relay]; exact ih h.2
    | Error m => simp [relay]; exact ih h.2
    | Terminated p => simp [isTerm] at h

theorem relay_map_stdout (ls : List String) :
    relay (ls.map CommandEvent.Stdout) = ls.map OutputEvent.StdoutLine := by
  induction ls with
  | nil => rfl
  | cons a t ih => simp [relay, ih]

theorem map_stdout_noterm (ls : List String) :
    (ls.map CommandEvent.Stdout).any isTerm = false := by
  induction ls with
  | nil => rfl
  | cons a t ih => simp [isTerm, ih]

theorem stdoutLines_relay (es : List CommandEvent) :
    stdoutLines (relay es) = stdoutChunks (untilTerm es) := by
  induction es with
  | nil => rfl
  | cons e rest ih =>
    cases e with
    | Stdout line => simp [relay, untilTerm, stdoutLines, stdoutChunks, ih]
    | Stderr line => simp [relay, untilTerm, stdoutLines, stdoutChunks, ih]
    | Error m => simp [relay, untilTerm, stdoutChunks, ih]
    | Terminated p => simp [relay, untilTerm, stdoutLines, stdoutChunks]

theorem stderrLines_relay (es : List CommandEvent) :
    stderrLines (relay es) = stderrChunks (untilTerm es) := by
  induction es with
  | nil => rfl
  | cons e rest ih =>
    cases e with
    | Stdout line => simp [relay, untilTerm, stderrLines, stderrChunks, ih]
    | Stderr line => simp [relay, untilTerm, stderrLines, stderrChunks, ih]
    | Error m => simp [relay, untilTerm, stderrChunks, ih]
    | Terminated p => simp [relay, untilTerm, stderrLines, stderrChunks]

theorem relay_append_error (es : List CommandEvent) (m : String) :
    relay (es ++ [CommandEvent.Error m]) = relay es := by
  induction es with
  | nil => rfl
  | cons e rest ih => cases e <;> simp [relay, ih]

/-- C4: for a child that emits stdout lines "a" then "b" and then terminates
with exit code 0, the relay forwards exactly `StdoutLine "a"`,
`StdoutLine "b"`, `Terminated (some 0)` in that order with `Terminated`
last; in general the relay forwards the stdout lines of a stream (and ditto
stderr) in exactly the order received, up to the terminal notification. -/
theorem C4_relay_order_preserved :
    relay [CommandEvent.Stdout "a", CommandEvent.Stdout "b",
        CommandEvent.Terminated ⟨some 0, none⟩]
      = [OutputEvent.StdoutLine "a", OutputEvent.StdoutLine "b",
        OutputEvent.Terminated (some 0)]
    ∧ (∀ (ls : List String) (p : TerminatedPayload),
        relay (ls.map CommandEvent.Stdout ++ [CommandEvent.Terminated p])
          = ls.map OutputEvent.StdoutLine ++ [OutputEvent.Terminated p.code])
    ∧ (∀ es : List CommandEvent, stdoutLines (relay es) = stdoutChunks (untilTerm es))
    ∧ (∀ es : List CommandEvent, stderrLines (relay es) = stderrChunks (untilTerm es)) := by
  refine ⟨rfl, ?_, stdoutLines_relay, stderrLines_relay⟩
  intro ls p
  rw [relay_append_noterm _ _ (map_stdout_noterm ls), relay_map_stdout]
  rfl

/-- C5: if the underlying stream errors (the channel delivers an `Error`
event and then closes), the relay forwards nothing for the error and stops
with the stream: its output is exactly that of the preceding events, and no
`Terminated` event carrying any exit code is ever forwarded (the exit code
stays unknown). The loop body is a total match with no panicking call, so
the relay never panics the host. -/
theorem C5_stream_error_implicit_termination :
    (∀ (es : List CommandEvent) (m : String),
        relay (es ++ [CommandEvent.Error m]) = relay es)
    ∧ (∀ (es : List CommandEvent) (m : String) (c : Option Int),
        es.any isTerm = false →
        OutputEvent.Terminated c ∉ relay (es ++ [CommandEvent.Error m])) := by
  refine ⟨relay_append_error, ?_⟩
  intro es m c h
  rw [relay_append_error]
  exact relay_noterm_no_terminated es h c

theorem C5_witness :
    OutputEvent.Terminated (some 0)
      ∉ relay ([CommandEvent.Stdout "x"] ++ [CommandEvent.Error "pipe closed"]) :=
  C5_stream_error_implicit_termination.2 [CommandEvent.Stdout "x"] "pipe closed"
    (some 0) (by decide)

/-- C8: once the terminal exit notification arrives, the relay forwards
exactly one `Terminated` event and breaks out of the loop: whatever follows
the notification in the stream is never forwarded, and no `Terminated`
event was forwarded before it. -/
theorem C8_terminated_is_final (es1 : List CommandEvent) (p : TerminatedPayload)
    (es2 : List CommandEvent) (h : es1.any isTerm = false) :
    relay (es1 ++ CommandEvent.Terminated p :: es2)
      = relay es1 ++ [OutputEvent.Terminated p.code]
    ∧ ∀ c, OutputEvent.Terminated c ∉ relay es1 := by
  constructor
  · rw [relay_append_noterm es1 (CommandEvent.Terminated p :: es2) h]
    rfl
  · exact relay_noterm_no_terminated es1 h

theorem C8_witness :
    relay ([CommandEvent.Stdout "x"]
        ++ CommandEvent.Terminated ⟨some 0, none⟩ :: [CommandEvent.Stdout "late"])
      = relay [CommandEvent.Stdout "x"] ++ [OutputEvent.Terminated (some 0)] :=
  (C8_terminated_is_final [CommandEvent.Stdout "x"] ⟨some 0, none⟩
    [CommandEvent.Stdout "late"] (by decide)).1

/-- C9: for a child killed externally before emitting any output, the
stream is just the terminal notification (code absent or the signal code);
the relay forwards the single `Terminated` event and no stdout or stderr
line. -/
theorem C9_killed_before_output (p : TerminatedPayload) :
    relay [CommandEvent.Terminated p] = [OutputEvent.Terminated p.code]
    ∧ stdoutLines (relay [CommandEvent.Terminated p]) = []
    ∧ stderrLines (relay [CommandEvent.Terminated p]) = [] :=
  ⟨rfl, rfl, rfl⟩

/-- C10: an event matched by the wildcard arm (the `Error` variant, the only
variant besides Stdout/Stderr/Terminated) forwards no diagnostic event and
the loop continues with the rest of the stream; as long as no `Terminated`
event has arrived, the relay keeps consuming the stream (appending further
events extends the output accordingly), so only channel closure or a
`Terminated` event ends the relay. -/
theorem C10_wildcard_continues :
    (∀ (m : String) (es : List CommandEvent),
        relay (CommandEvent.Error m :: es) = relay es)
    ∧ (∀ es l : List CommandEvent, es.any isTerm = false →
        relay (es ++ l) = relay es ++ relay l) := by
  exact ⟨fun m es => rfl, relay_append_noterm⟩

theorem C10_witness :
    relay ([CommandEvent.Stderr "w"] ++ [CommandEvent.Stdout "x"])
      = relay [CommandEvent.Stderr "w"] ++ relay [CommandEvent.Stdout "x"] :=
  C10_wildcard_continues.2 [CommandEvent.Stderr "w"] [CommandEvent.Stdout "x"]
    (by decide)

/-- Outcome of the two fallible steps in the setup closure:
`Command::new_sidecar(...)` (locating the bundled executable) and
`.spawn()` (asking the OS to create the process). -/
inductive SpawnOutcome where
  | ok (child : ProcessHandle)
  | commandError
  | spawnError
deriving DecidableEq

/-- Outcome of `child.kill()` as reported by the OS. -/
inductive KillResult where
  | ok
  | killError (message : String)
deriving DecidableEq

/-- The spawn-and-store step of the setup closure.  A failure of either
`.expect(...)` is a panic in the setup hook, fatal to application startup,
modelled as `Except.error` carrying the panic message; on success the
handle is stored unconditionally into the managed state
(`state.lock().unwrap().child = Some(child)`). -/
def setup (st : BackendState) : SpawnOutcome → Except String BackendState
  | SpawnOutcome.commandError => Except.error "failed to create sidecar command"
  | SpawnOutcome.spawnError => Except.error "failed to spawn backend sidecar"
  | SpawnOutcome.ok child => Except.ok { st with child := some child }

/-- The window events the `on_window_event` closure can receive; every
variant other than `Destroyed` falls outside its `if let` and is ignored. -/
inductive WindowEvent where
  | Destroyed
  | CloseRequested
  | Focused (focused : Bool)
deriving DecidableEq

/-- The `on_window_event` closure on a `Destroyed` event, given the managed
state and the result the OS would return for a kill request.  It takes the
child out of the state and, if one was present, issues one kill request
whose result is discarded (`let _ = child.kill();`).  Returns the new
state, the number of kill requests issued, and the log lines the handler
emits (it emits none: the kill result is discarded unlogged). -/
def destroyedHandler (b : BackendState) (_killResult : KillResult) :
    BackendState × Nat × List String :=
  match b.child with
  | some _ => (⟨none⟩, 1, [])
  | none => (b, 0, [])

/-- The whole `on_window_event` closure: only `Destroyed` does anything. -/
def onWindowEvent (ev : WindowEvent) (b : BackendState) (killResult : KillResult) :
    BackendState × Nat × List String :=
  match ev with
  | WindowEvent.Destroyed => destroyedHandler b killResult
  | _ => (b, 0, [])

/-- One iteration of the relay loop body: the diagnostic events forwarded
for a single received event (wildcard arm forwards nothing). -/
def relayForward : CommandEvent → List OutputEvent
  | CommandEvent.Stdout line => [OutputEvent.StdoutLine line]
  | CommandEvent.Stderr line => [OutputEvent.StderrLine line]
  | CommandEvent.Terminated payload => [OutputEvent.Terminated payload.code]
  | CommandEvent.Error _ => []

/-- The application-level state: the managed `BackendState`, whether the
framework has already run the setup hook (Tauri runs it at most once),
counters of OS processes spawned and kill requests issued, the diagnostic
sink written by the relay, and whether the relay loop has already broken
out on a `Terminated` event. -/
structure AppState where
  backend : BackendState
  setupRun : Bool
  spawned : Nat
  kills : Nat
  sink : List OutputEvent
  relayDone : Bool
deriving DecidableEq

/-- The operations that can act on the application state: the framework
invoking the setup hook, a window event delivered to the handler, and the
relay task receiving one event from the child's channel. -/
inductive Op where
  | setupHook (outcome : SpawnOutcome)
  | window (ev : WindowEvent)
  | relayRecv (e : CommandEvent)
deriving DecidableEq

/-- Effect of a window event on the application state (the kill result does
not influence the handler, so any representative value may be passed). -/
def applyWindow (ev : WindowEvent) (s : AppState) : AppState :=
  { s with
    backend := (onWindowEvent ev s.backend KillResult.ok).1,
    kills := s.kills + (onWindowEvent ev s.backend KillResult.ok).2.1 }

/-- Effect on the application state of the relay task receiving one event:
it appends forwarded diagnostics to the sink and records the break on
`Terminated`; it never touches `backend` (the relay closure captures only
the receiver `rx`, not the managed state). -/
def applyRelay (e : CommandEvent) (s : AppState) : AppState :=
  if s.relayDone then s
  else { s with sink := s.sink ++ relayForward e, relayDone := isTerm e }

/-- One operation applied to the application state.  A panic in the setup
hook aborts the application (`Except.error`); the framework never re-runs
the setup hook after it has run, and the other two operations are total. -/
def applyOp (s : AppState) : Op → Except String AppState
  | Op.setupHook outcome =>
    if s.setupRun then Except.ok s
    else
      match setup s.backend outcome with
      | Except.error msg => Except.error msg
      | Except.ok b =>
        Except.ok { s with backend := b, setupRun := true, spawned := s.spawned + 1 }
  | Op.window ev => Except.ok (applyWindow ev s)
  | Op.relayRecv e => Except.ok (applyRelay e s)

/-- Run a sequence of operations, stopping at the first fatal error. -/
def runOps : AppState → List Op → Except String AppState
  | s, [] => Except.ok s
  | s, o :: rest =>
    match applyOp s o with
    | Except.error m => Except.error m
    | Except.ok s2 => runOps s2 rest

/-- The state at application start: no child, setup not yet run. -/
def initialState : AppState :=
  { backend := ⟨none⟩, setupRun := false, spawned := 0, kills := 0,
    sink := [], relayDone := false }

/-- One successful (non-aborting) transition of the application. -/
def AppStep (s s2 : AppState) : Prop := ∃ o, applyOp s o = Except.ok s2

/-- The states the application can reach from start. -/
def ReachableApp : AppState → Prop :=
  Relation.ReflTransGen AppStep initialState

/-- Inductive invariant: the spawn counter matches whether setup has run,
and a stored child implies setup has run. -/
def SupInvariant (s : AppState) : Prop :=
  s.spawned = (if s.setupRun then 1 else 0)
  ∧ (s.backend.child.isSome = true → s.setupRun = true)

theorem supInvariant_initial : SupInvariant initialState := by
  constructor <;> simp [initialState]

theorem supInvariant_step (s : AppState) (o : Op) (s2 : AppState)
    (hinv : SupInvariant s) (hstep : applyOp s o = Except.ok s2) :
    SupInvariant s2 := by
  obtain ⟨hcount, hchild⟩ := hinv
  cases o with
  | setupHook outcome =>
    by_cases hrun : s.setupRun
    · simp [applyOp, hrun] at hstep
      subst hstep
      exact ⟨hcount, hchild⟩
    · cases outcome with
      | ok child =>
        simp [applyOp, hrun, setup] at hstep
        subst hstep
        constructor
        · simp [hcount, hrun]
        · intro _; rfl
      | commandError => simp [applyOp, hrun, setup] at hstep
      | spawnError => simp [applyOp, hrun, setup] at hstep
  | window ev =>
    simp [applyOp] at hstep
    subst hstep
    cases ev with
    | Destroyed =>
      cases hc : s.backend.child with
      | some child =>
        constructor
        · simpa [applyWindow, onWindowEvent, destroyedHandler, hc] using hcount
        · simp [applyWindow, onWindowEvent, destroyedHandler, hc]
      | none =>
        constructor
        · simpa [applyWindow, onWindowEvent, destroyedHandler, hc] using hcount
        · intro hsome
          simp [applyWindow, onWindowEvent, destroyedHandler, hc] at hsome
    | CloseRequested => exact ⟨by simpa [applyWindow, onWindowEvent] using hcount,
        fun hsome => hchild (by simpa [applyWindow, onWindowEvent] using hsome)⟩
    | Focused f => exact ⟨by simpa [applyWindow, onWindowEvent] using hcount,
        fun hsome => hchild (by simpa [applyWindow, onWindowEvent] using hsome)⟩
  | relayRecv e =>
    simp [applyOp] at hstep
    subst hstep
    by_cases hdone : s.relayDone
    · simpa [applyRelay, hdone] using ⟨hcount, hchild⟩
    · constructor
      · simpa [applyRelay, hdone] using hcount
      · intro hsome
        simp [applyRelay, hdone] at hsome ⊢
        exact hchild hsome

theorem reachable_supInvariant (s : AppState) (hs : ReachableApp s) :
    SupInvariant s := by
  induction hs with
  | refl => exact supInvariant_initial
  | tail hstep hlast ih =>
    obtain ⟨o, ho⟩ := hlast
    exact supInvariant_step _ o _ ih ho

/-- Discriminates the setup-hook operation. -/
def isSetupOp : Op → Bool
  | Op.setupHook _ => true
  | _ => false

/-- The state after the framework has run the setup hook and the spawn
succeeded with a child of pid 0. -/
def afterSetup : AppState :=
  { backend := ⟨some ⟨0⟩⟩, setupRun := true, spawned := 1, kills := 0,
    sink := [], relayDone := false }

theorem reachable_afterSetup : ReachableApp afterSetup :=
  Relation.ReflTransGen.single ⟨Op.setupHook (SpawnOutcome.ok ⟨0⟩), rfl⟩

/-- C1: in every reachable application state, at most one OS process has
been spawned; a stored handle accounts for exactly that one spawn; no
operation replaces a stored handle with a different one (a stored handle
can only stay or be cleared); and a setup-hook call that actually runs
spawns exactly one OS process. Together with `child : Option ProcessHandle`
being a single optional field, at most one live handle is ever stored. -/
theorem C1_at_most_one_handle (s : AppState) (hs : ReachableApp s) :
    s.spawned ≤ 1
    ∧ (s.backend.child.isSome = true → s.spawned = 1)
    ∧ (∀ (o : Op) (s2 : AppState) (h : ProcessHandle), applyOp s o = Except.ok s2 →
        s.backend.child = some h →
        s2.backend.child = some h ∨ s2.backend.child = none)
    ∧ (∀ (outcome : SpawnOutcome) (s2 : AppState), s.setupRun = false →
        applyOp s (Op.setupHook outcome) = Except.ok s2 →
        s2.spawned = s.spawned + 1) := by
  obtain ⟨hcount, hchild⟩ := reachable_supInvariant s hs
  refine ⟨?_, ?_, ?_, ?_⟩
  · rw [hcount]; split <;> simp
  · intro hsome
    rw [hcount, hchild hsome]
    rfl
  · intro o s2 h ho hc
    cases o with
    | setupHook outcome =>
      have hrun : s.setupRun = true := hchild (by simp [hc])
      simp [applyOp, hrun] at ho
      subst ho
      exact Or.inl hc
    | window ev =>
      simp [applyOp] at ho
      subst ho
      cases ev with
      | Destroyed => exact Or.inr (by simp [applyWindow, onWindowEvent, destroyedHandler, hc])
      | CloseRequested => exact Or.inl (by simpa [applyWindow, onWindowEvent] using hc)
      | Focused f => exact Or.inl (by simpa [applyWindow, onWindowEvent] using hc)
    | relayRecv e =>
      simp [applyOp] at ho
      subst ho
      by_cases hdone : s.relayDone
      · exact Or.inl (by simpa [applyRelay, hdone] using hc)
      · exact Or.inl (by simpa [applyRelay, hdone] using hc)
  · intro outcome s2 hrun ho
    cases outcome with
    | ok child =>
      simp [applyOp, hrun, setup] at ho
      subst ho
      rfl
    | commandError => simp [applyOp, hrun, setup] at ho
    | spawnError => simp [applyOp, hrun, setup] at ho

theorem C1_witness :
    afterSetup.spawned ≤ 1
    ∧ (afterSetup.backend.child.isSome = true → afterSetup.spawned = 1) :=
  ⟨(C1_at_most_one_handle afterSetup reachable_afterSetup).1,
    (C1_at_most_one_handle afterSetup reachable_afterSetup).2.1⟩

theorem destroyed_absent_noop (s : AppState) (hc : s.backend.child = none) :
    applyWindow WindowEvent.Destroyed s = s := by
  simp [applyWindow, onWindowEvent, destroyedHandler, hc]

theorem destroyed_clears (s : AppState) :
    (applyWindow WindowEvent.Destroyed s).backend.child = none := by
  cases hc : s.backend.child <;>
    simp [applyWindow, onWindowEvent, destroyedHandler, hc]

/-- C2: the window-destroyed handler is idempotent and total.  When the
child field is absent it is a no-op on the state; running it twice equals
running it once; after it runs the field is absent; a single invocation
issues at most one kill request, and a second invocation issues none; and
as an operation it always returns successfully (it has no panicking or
aborting path — the mutex is never poisoned because no code panics while
holding it). -/
theorem C2_shutdown_idempotent (s : AppState) :
    (s.backend.child = none → applyWindow WindowEvent.Destroyed s = s)
    ∧ applyWindow WindowEvent.Destroyed (applyWindow WindowEvent.Destroyed s)
        = applyWindow WindowEvent.Destroyed s
    ∧ (applyWindow WindowEvent.Destroyed s).backend.child = none
    ∧ (applyWindow WindowEvent.Destroyed s).kills ≤ s.kills + 1
    ∧ (applyWindow WindowEvent.Destroyed (applyWindow WindowEvent.Destroyed s)).kills
        = (applyWindow WindowEvent.Destroyed s).kills
    ∧ applyOp s (Op.window WindowEvent.Destroyed)
        = Except.ok (applyWindow WindowEvent.Destroyed s) := by
  refine ⟨destroyed_absent_noop s, ?_, destroyed_clears s, ?_, ?_, rfl⟩
  · exact destroyed_absent_noop _ (destroyed_clears s)
  · cases hc : s.backend.child <;>
      simp [applyWindow, onWindowEvent, destroyedHandler, hc]
  · rw [destroyed_absent_noop _ (destroyed_clears s)]

theorem C2_witness :
    applyWindow WindowEvent.Destroyed initialState = initialState :=
  (C2_shutdown_idempotent initialState).1 rfl

/-- The reachable state in which the child spawned at setup has naturally
terminated and the relay has observed the terminal notification. -/
def afterNaturalExit : AppState :=
  applyRelay (CommandEvent.Terminated ⟨some 0, none⟩) afterSetup

/-- C3 counterexample: a reachable state in which the relay has observed
the child's natural termination (the `Terminated` diagnostic is in the
sink and the loop has broken out), yet the `child` field still holds the
handle — the relay task captures only the channel receiver and never
touches `BackendState`, so termination detection does not clear the field,
contrary to the claim. -/
theorem C3_counterexample :
    ReachableApp afterNaturalExit
    ∧ afterNaturalExit.sink = [OutputEvent.Terminated (some 0)]
    ∧ afterNaturalExit.relayDone = true
    ∧ afterNaturalExit.backend.child = some ⟨0⟩ := by
  refine ⟨?_, rfl, rfl, rfl⟩
  exact Relation.ReflTransGen.tail
    (Relation.ReflTransGen.single ⟨Op.setupHook (SpawnOutcome.ok ⟨0⟩), rfl⟩)
    ⟨Op.relayRecv (CommandEvent.Terminated ⟨some 0, none⟩), rfl⟩

/-- C3 amended: the `child` field is mutated only by the setup hook (which
sets it, from absent to present) and by the window-destroyed handler (which
clears it, from present to absent); the relay task never mutates it, so on
natural termination the stale handle remains stored until the
window-destroyed handler takes and kills it. -/
theorem C3_child_mutations (s : AppState) (o : Op) (s2 : AppState)
    (hs : ReachableApp s) (hstep : applyOp s o = Except.ok s2)
    (hne : s2.backend.child ≠ s.backend.child) :
    (isSetupOp o = true ∧ s.backend.child = none ∧ s2.backend.child ≠ none)
    ∨ (o = Op.window WindowEvent.Destroyed ∧ s.backend.child ≠ none
        ∧ s2.backend.child = none) := by
  obtain ⟨hcount, hchild⟩ := reachable_supInvariant s hs
  cases o with
  | setupHook outcome =>
    by_cases hrun : s.setupRun
    · simp [applyOp, hrun] at hstep
      subst hstep
      exact absurd rfl hne
    · cases outcome with
      | ok child =>
        simp [applyOp, hrun, setup] at hstep
        subst hstep
        refine Or.inl ⟨rfl, ?_, by simp⟩
        cases hc : s.backend.child with
        | none => rfl
        | some h => exact absurd (hchild (by simp [hc])) hrun
      | commandError => simp [applyOp, hrun, setup] at hstep
      | spawnError => simp [applyOp, hrun, setup] at hstep
  | window ev =>
    simp [applyOp] at hstep
    subst hstep
    cases ev with
    | Destroyed =>
      cases hc : s.backend.child with
      | none => exact absurd (by rw [destroyed_absent_noop s hc]) hne
      | some h =>
        exact Or.inr ⟨rfl, by simp [hc], destroyed_clears s⟩
    | CloseRequested => exact absurd (by simp [applyWindow, onWindowEvent]) hne
    | Focused f => exact absurd (by simp [applyWindow, onWindowEvent]) hne
  | relayRecv e =>
    simp [applyOp] at hstep
    subst hstep
    by_cases hdone : s.relayDone
    · exact absurd (by simp [applyRelay, hdone]) hne
    · exact absurd (by simp [applyRelay, hdone]) hne

theorem C3_amended_witness :
    (isSetupOp (Op.setupHook (SpawnOutcome.ok ⟨0⟩)) = true
      ∧ initialState.backend.child = none ∧ afterSetup.backend.child ≠ none)
    ∨ (Op.setupHook (SpawnOutcome.ok ⟨0⟩) = Op.window WindowEvent.Destroyed
      ∧ initialState.backend.child ≠ none ∧ afterSetup.backend.child = none) :=
  C3_child_mutations initialState (Op.setupHook (SpawnOutcome.ok ⟨0⟩)) afterSetup
    Relation.ReflTransGen.refl rfl (by simp [afterSetup, initialState])

/-- C6 counterexample: even when the OS refuses the kill request, the
window-destroyed handler emits no log line at all (third component `[]`):
the source discards the result of `child.kill()` with `let _ = ...;`
without logging it, so the claim that the `KillError` is "logged" fails on
this input (the "not escalated" half does hold: the handler still returns
the cleared state). -/
theorem C6_counterexample :
    onWindowEvent WindowEvent.Destroyed ⟨some ⟨0⟩⟩
        (KillResult.killError "operation not permitted")
      = (⟨none⟩, 1, ([] : List String)) := rfl

/-- C6 amended: when the OS refuses or ignores a kill request issued by the
window-destroyed handler, the resulting error is silently discarded rather
than logged, and it is not escalated: the handler's result (state
transition, kill count, and log output) is identical for every kill
outcome, it emits no log line in any case, and killing when no live child
is stored is a benign no-op. -/
theorem C6_kill_error_discarded :
    (∀ (ev : WindowEvent) (b : BackendState) (r r2 : KillResult),
        onWindowEvent ev b r = onWindowEvent ev b r2)
    ∧ (∀ (ev : WindowEvent) (b : BackendState) (r : KillResult),
        (onWindowEvent ev b r).2.2 = [])
    ∧ (∀ (b : BackendState) (r : KillResult), b.child = none →
        onWindowEvent WindowEvent.Destroyed b r = (b, 0, [])) := by
  refine ⟨?_, ?_, ?_⟩
  · intro ev b r r2
    cases ev <;> rfl
  · intro ev b r
    cases ev with
    | Destroyed => cases hc : b.child <;> simp [onWindowEvent, destroyedHandler, hc]
    | CloseRequested => rfl
    | Focused f => rfl
  · intro b r hc
    simp [onWindowEvent, destroyedHandler, hc]

theorem C6_witness :
    onWindowEvent WindowEvent.Destroyed ⟨none⟩ KillResult.ok
      = (⟨none⟩, 0, ([] : List String)) :=
  C6_kill_error_discarded.2.2 ⟨none⟩ KillResult.ok rfl

theorem applyOp_error_msgs (s : AppState) (o : Op) (m : String)
    (h : applyOp s o = Except.error m) :
    m = "failed to create sidecar command" ∨ m = "failed to spawn backend sidecar" := by
  cases o with
  | setupHook outcome =>
    by_cases hrun : s.setupRun
    · simp [applyOp, hrun] at h
    · cases outcome with
      | ok child => simp [applyOp, hrun, setup] at h
      | commandError =>
        simp [applyOp, hrun, setup] at h
        exact Or.inl h.symm
      | spawnError =>
        simp [applyOp, hrun, setup] at h
        exact Or.inr h.symm
  | window ev => simp [applyOp] at h
  | relayRecv e => simp [applyOp] at h

theorem runOps_error_msgs (ops : List Op) : ∀ (s : AppState) (m : String),
    runOps s ops = Except.error m →
    m = "failed to create sidecar command" ∨ m = "failed to spawn backend sidecar" := by
  induction ops with
  | nil => intro s m h; simp [runOps] at h
  | cons o rest ih =>
    intro s m h
    cases ho : applyOp s o with
    | error m2 =>
      simp only [runOps, ho] at h
      injection h with hm
      exact hm ▸ applyOp_error_msgs s o m2 ho
    | ok s2 =>
      simp only [runOps, ho] at h
      exact ih s2 m h

/-- C7: if the sidecar executable cannot be located
(`Command::new_sidecar` fails) or the OS refuses to create the process
(`.spawn()` fails), the setup closure panics via `.expect(...)` with the
corresponding message, which aborts application startup; on success it
stores the handle.  A run starting from a not-yet-set-up state with a
failing spawn aborts immediately, and these two panic messages are the
only way any modelled operation sequence terminates the application. -/
theorem C7_spawn_failure_fatal :
    (∀ b : BackendState, setup b SpawnOutcome.commandError
        = Except.error "failed to create sidecar command")
    ∧ (∀ b : BackendState, setup b SpawnOutcome.spawnError
        = Except.error "failed to spawn backend sidecar")
    ∧ (∀ (b : BackendState) (h : ProcessHandle),
        setup b (SpawnOutcome.ok h) = Except.ok ⟨some h⟩)
    ∧ (∀ (s : AppState) (rest : List Op), s.setupRun = false →
        runOps s (Op.setupHook SpawnOutcome.spawnError :: rest)
          = Except.error "failed to spawn backend sidecar")
    ∧ (∀ (s : AppState) (ops : List Op) (m : String),
        runOps s ops = Except.error m →
        m = "failed to create sidecar command"
          ∨ m = "failed to spawn backend sidecar") := by
  refine ⟨fun b => rfl, fun b => rfl, fun b h => rfl, ?_, fun s ops m h => runOps_error_msgs ops s m h⟩
  intro s rest hrun
  simp [runOps, applyOp, hrun, setup]

theorem C7_witness :
    runOps initialState [Op.setupHook SpawnOutcome.spawnError]
      = Except.error "failed to spawn backend sidecar" :=
  C7_spawn_failure_fatal.2.2.2.1 initialState [] rfl
